import Mathlib

/-!
Verification of the quest-planner core (`srs/quest_generator.py`): the
identifier sanitizer, the quest-graph data model, the JSON-style persistence
codec, the HTML renderer, and the editor-level node operations.

Python strings are modelled as Lean `String`/`List Char`.  `str.strip()` /
`str.rstrip()` are modelled over the main Python whitespace characters;
`str.lower()` is modelled on ASCII letters plus the uppercase forms of the
four characters the sanitizer transliterates (for every other character,
both the Python original and this model leave a character that the following
`[^a-z0-9_-]+` substitution turns into a dash, so the modelled pipeline
agrees with the source on the properties proved here).  The wall clock
(`now_stamp`, `datetime.now`) is an external input and is passed to the
renderer as an explicit `now : String` argument.
-/

namespace Quest

/-- Characters allowed by the id character class `[a-z0-9_-]` of
`sanitize_id` (`'-'` is 45, `'_'` is 95). -/
def isIdChar (c : Char) : Bool :=
  (97 ≤ c.toNat && c.toNat ≤ 122) || (48 ≤ c.toNat && c.toNat ≤ 57) ||
    c.toNat == 45 || c.toNat == 95

/-- Python `str.strip()` whitespace, modelled on the core set:
tab .. carriage return (9-13), space (32), file/group/record/unit
separators (28-31), next line (133) and no-break space (160). -/
def isPyWs (c : Char) : Bool :=
  c.toNat == 32 || (9 ≤ c.toNat && c.toNat ≤ 13) ||
    (28 ≤ c.toNat && c.toNat ≤ 31) || c.toNat == 133 || c.toNat == 160

/-- Remove the trailing run of characters satisfying `p`
(the right half of Python `str.strip` / `str.rstrip`). -/
def rstripP (p : Char → Bool) : List Char → List Char
  | [] => []
  | c :: rest =>
    let r := rstripP p rest
    if r.isEmpty && p c then [] else c :: r

/-- Python `str.strip()` on a character list: drop the leading and the
trailing whitespace run. -/
def pyStripList (l : List Char) : List Char :=
  rstripP isPyWs (l.dropWhile isPyWs)

/-- Python `str.strip()`. -/
def pyStrip (s : String) : String := ⟨pyStripList s.data⟩

/-- Python `str.rstrip()`. -/
def pyRstrip (s : String) : String := ⟨rstripP isPyWs s.data⟩

/-- Python `str.lower()`, modelled on ASCII `A`-`Z` plus the uppercase
forms of the four characters `sanitize_id` transliterates. -/
def pyLowerChar (c : Char) : Char :=
  if 65 ≤ c.toNat && c.toNat ≤ 90 then Char.ofNat (c.toNat + 32)
  else if c = 'Ä' then 'ä'
  else if c = 'Ö' then 'ö'
  else if c = 'Ü' then 'ü'
  else if c = 'ẞ' then 'ß'
  else c

/-- Python `str.replace(pat, rep)` for a one-character pattern. -/
def replaceChar (pat : Char) (rep : List Char) (l : List Char) : List Char :=
  l.flatMap (fun c => if c = pat then rep else [c])

/-- `re.sub(r"[^a-z0-9\-_]+", "-", ·)`: every maximal run of characters
outside the id class becomes a single `'-'`.  The boolean flag records
whether the previous character was part of such a run. -/
def subNonIdAux : Bool → List Char → List Char
  | _, [] => []
  | inRun, c :: rest =>
    if isIdChar c then c :: subNonIdAux false rest
    else if inRun then subNonIdAux true rest
    else '-' :: subNonIdAux true rest

/-- `re.sub(r"-{2,}", "-", ·)`: every run of dashes becomes a single dash
(a run of length one is already a single dash, so tracking all runs with a
previous-was-dash flag implements the source regex). -/
def collapseDashAux : Bool → List Char → List Char
  | _, [] => []
  | prevDash, c :: rest =>
    if c = '-' then
      if prevDash then collapseDashAux true rest
      else '-' :: collapseDashAux true rest
    else c :: collapseDashAux false rest

/-- Python `str.strip("-")`. -/
def stripDashes (l : List Char) : List Char :=
  rstripP (fun c => c == '-') (l.dropWhile (fun c => c == '-'))

/-- `sanitize_id` from the source: strip, lower, transliterate the four
umlaut/sharp-s characters, squash non-id runs to `-`, collapse dash runs,
strip dashes, and fall back to `"node"` when empty. -/
def sanitize_id (raw : String) : String :=
  let r1 := (pyStripList raw.data).map pyLowerChar
  let r2 := replaceChar 'ä' ['a', 'e'] r1
  let r3 := replaceChar 'ö' ['o', 'e'] r2
  let r4 := replaceChar 'ü' ['u', 'e'] r3
  let r5 := replaceChar 'ß' ['s', 's'] r4
  let r6 := collapseDashAux false (subNonIdAux false r5)
  let r7 := stripDashes r6
  if r7.isEmpty then "node" else ⟨r7⟩

/-- The whole character pipeline of `sanitize_id` before the `"node"`
fallback, as one composition (definitionally equal to the let-chain of
`sanitize_id`; used to state the structural lemmas). -/
def sanitizeCore (l : List Char) : List Char :=
  stripDashes (collapseDashAux false (subNonIdAux false
    (replaceChar 'ß' ['s', 's'] (replaceChar 'ü' ['u', 'e']
      (replaceChar 'ö' ['o', 'e'] (replaceChar 'ä' ['a', 'e']
        ((pyStripList l).map pyLowerChar)))))))

/-- `html_escape` from the source: `&` then `<` then `>` are replaced by
their entities, in that order. -/
def html_escape (s : String) : String :=
  ⟨replaceChar '>' ['&', 'g', 't', ';']
    (replaceChar '<' ['&', 'l', 't', ';']
      (replaceChar '&' ['&', 'a', 'm', 'p', ';'] s.data))⟩

/-- `lines_to_list` from the source: split into lines, strip each line and
drop the blank ones (`str.splitlines` modelled as splitting at `'\n'`). -/
def lines_to_list (text : String) : List String :=
  ((text.split (fun c => c == '\n')).map pyStrip).filter (fun s => !s.isEmpty)

/-- `list_to_lines` from the source. -/
def list_to_lines (items : List String) : String :=
  String.intercalate "\n" items

/-- The source dataclass `Option` (an outgoing choice of a node); named
`QOption` because `Option` is taken in Lean. -/
structure QOption where
  label : String := ""
  target : String := ""
deriving DecidableEq, Repr

/-- The source dataclass `Node`. -/
structure Node where
  node_id : String := "start"
  title : String := "Start"
  scene : String := ""
  dialog : String := ""
  content : String := ""
  info_items : List String := []
  tech_flags : List String := []
  outcomes : List String := []
  notes : String := ""
  options : List QOption := []
deriving DecidableEq, Repr

/-- The source dataclass `QuestMeta`. -/
structure QuestMeta where
  quest_name : String := "Neue Quest"
  region : String := "Unbekannt"
  short_description : String := "Kurzbeschreibung hier…"
  quest_giver : String := ""
  prerequisite : String := ""
  quest_type : String := ""
  meta_short : String := ""
  rewards : String := ""
  important_flags : String := ""
  version_stamp : String := ""
deriving DecidableEq, Repr

/-- The source dataclass `QuestProject`. -/
structure QuestProject where
  meta : QuestMeta := {}
  nodes : List Node := []
deriving DecidableEq, Repr

/-! ## Persistence codec

The JSON documents written by `project_to_jsonable` and read by
`project_from_jsonable` are modelled structurally: a field read with
`dict.get(k, default)` becomes an `Option`-typed field (`none` = key
absent), and the `x or []` null-guard of the sequence fields is covered by
`Option.getD []`. -/

/-- One `{label, target}` record of the `options` sequence. -/
structure OptionDict where
  label : Option String := none
  target : Option String := none
deriving DecidableEq, Repr

/-- One node record of the `nodes` sequence. -/
structure NodeDict where
  node_id : Option String := none
  title : Option String := none
  scene : Option String := none
  dialog : Option String := none
  content : Option String := none
  info_items : Option (List String) := none
  tech_flags : Option (List String) := none
  outcomes : Option (List String) := none
  notes : Option String := none
  options : Option (List OptionDict) := none
deriving DecidableEq, Repr

/-- The flat `meta` record. -/
structure MetaDict where
  quest_name : Option String := none
  region : Option String := none
  short_description : Option String := none
  quest_giver : Option String := none
  prerequisite : Option String := none
  quest_type : Option String := none
  meta_short : Option String := none
  rewards : Option String := none
  important_flags : Option String := none
  version_stamp : Option String := none
deriving DecidableEq, Repr

/-- The whole interchange document: `meta` and `nodes`. -/
structure ProjectDict where
  meta : Option MetaDict := none
  nodes : Option (List NodeDict) := none
deriving DecidableEq, Repr

/-- `option_to_dict` from the source. -/
def option_to_dict (opt : QOption) : OptionDict :=
  { label := some opt.label, target := some opt.target }

/-- `option_from_dict` from the source: `d.get("label","")` /
`d.get("target","")`. -/
def option_from_dict (d : OptionDict) : QOption :=
  { label := d.label.getD "", target := d.target.getD "" }

/-- The node part of `project_to_jsonable`: `asdict(n)` without `options`,
plus the `options` records. -/
def node_to_dict (n : Node) : NodeDict :=
  { node_id := some n.node_id
    title := some n.title
    scene := some n.scene
    dialog := some n.dialog
    content := some n.content
    info_items := some n.info_items
    tech_flags := some n.tech_flags
    outcomes := some n.outcomes
    notes := some n.notes
    options := some (n.options.map option_to_dict) }

/-- The node loop body of `project_from_jsonable`. -/
def node_from_dict (nd : NodeDict) : Node :=
  { node_id := nd.node_id.getD "node"
    title := nd.title.getD ""
    scene := nd.scene.getD ""
    dialog := nd.dialog.getD ""
    content := nd.content.getD ""
    info_items := nd.info_items.getD []
    tech_flags := nd.tech_flags.getD []
    outcomes := nd.outcomes.getD []
    notes := nd.notes.getD ""
    options := (nd.options.getD []).map option_from_dict }

/-- `project_to_jsonable` from the source: `asdict(p.meta)` and the node
records. -/
def project_to_jsonable (p : QuestProject) : ProjectDict :=
  { meta := some
      { quest_name := some p.meta.quest_name
        region := some p.meta.region
        short_description := some p.meta.short_description
        quest_giver := some p.meta.quest_giver
        prerequisite := some p.meta.prerequisite
        quest_type := some p.meta.quest_type
        meta_short := some p.meta.meta_short
        rewards := some p.meta.rewards
        important_flags := some p.meta.important_flags
        version_stamp := some p.meta.version_stamp }
    nodes := some (p.nodes.map node_to_dict) }

/-- `project_from_jsonable` from the source: every meta field defaults to
`""`, every missing node field to its zero value. -/
def project_from_jsonable (d : ProjectDict) : QuestProject :=
  let meta_d := d.meta.getD {}
  { meta :=
      { quest_name := meta_d.quest_name.getD ""
        region := meta_d.region.getD ""
        short_description := meta_d.short_description.getD ""
        quest_giver := meta_d.quest_giver.getD ""
        prerequisite := meta_d.prerequisite.getD ""
        quest_type := meta_d.quest_type.getD ""
        meta_short := meta_d.meta_short.getD ""
        rewards := meta_d.rewards.getD ""
        important_flags := meta_d.important_flags.getD ""
        version_stamp := meta_d.version_stamp.getD "" }
    nodes := (d.nodes.getD []).map node_from_dict }

/-- `QuestEditorApp._load_project`, the model part: decode the document
and, if the decoded node sequence is empty, append the default
`Node(node_id="start", title="Start")`. -/
def load_project (d : ProjectDict) : QuestProject :=
  let p := project_from_jsonable d
  if p.nodes.isEmpty then
    { p with nodes := p.nodes ++
        [⟨"start", "Start", "", "", "", [], [], [], "", []⟩] }
  else p

/-! ## HTML renderer

`CSS_BLOCK` and `JS_BLOCK` are the embedded stylesheet/script constants of
the source, verbatim (braces written as escape codes). -/

def CSS_BLOCK_A : String :=
  "\n  <style>\n    :root\x7b\n      --bg: #eef4ff;\n      --card: #ffffff;\n      --text: #111827;\n      --muted: #475569;\n      --line: rgba(15, 23, 42, .12);\n      --accent: #2f6feb;\n      --accent-soft: rgba(47,111,235,.12);\n      --shadow: 0 10px 24px rgba(15,23,42,.08);\n      --radius: 14px;\n    \x7d\n    * \x7b box-sizing: border-box; \x7d\n    html \x7b scroll-behavior: smooth; \x7d\n    body\x7b\n      margin: 0;\n      font-family: ui-sans-serif, system-ui, -apple-system, Segoe UI, Roboto, Helvetica, Arial, \"Noto Sans\", \"Apple Color Emoji\", \"Segoe UI Emoji\";\n      background: var(--bg);\n      color: var(--text);\n      line-height: 1.55;\n    \x7d\n    header, main, footer\x7b\n      max-width: 980px;\n      margin: 0 auto;\n      padding: 18px 18px;\n    \x7d\n    header\x7b padding-top: 28px; \x7d\n    header h1\x7b\n      margin: 0 0 6px 0;\n      font-size: clamp(1.4rem, 2.3vw, 2rem);\n      letter-spacing: .2px;\n    \x7d\n    header p\x7b margin: 6px 0 0 0; color: var(--muted); \x7d\n    hr\x7b\n      border: 0;\n      border-top: 1px solid var(--line);\n      margin: 18px 0;\n    \x7d\n    section\x7b\n      background: var(--card);\n      border: 1px solid var(--line);\n      border-radius: var(--radius);\n      box-shadow: var(--shadow);\n      padding: 18px 18px;\n      margin: 14px 0;\n      scroll-margin-top: 14px;\n    \x7d\n    main \x7b padding-bottom: 45vh; \x7d\n\n    section h2\x7b margin: 0 0 10px 0; font-size: 1.25rem; \x7d\n    section h3\x7b margin: 14px 0 8px 0; font-size: 1.05rem; \x7d\n\n    section:target\x7b\n      border-color: var(--accent);\n      background: linear-gradient(0deg, #fff, #fff) padding-box,\n                  linear-gradient(135deg, rgba(47,111,235,.35), rgba(47,111,235,0)) border-box;\n      box-shadow: 0 14px 35px rgba(47,111,235,.18), var(--shadow);\n      position: relative;\n    \x7d\n    section:target::before\x7b\n      content: \"Aktiver Knoten\";\n      position: absolute;\n      top: -10px;\n      right: 14px;\n      font-size: .78rem;\n      color: var(--accent);\n      background: #fff;\n"

def CSS_BLOCK_B : String :=
  "      border: 1px solid rgba(47,111,235,.35);\n      padding: 4px 8px;\n      border-radius: 999px;\n      box-shadow: 0 8px 16px rgba(15,23,42,.08);\n    \x7d\n\n    nav\x7b\n      display: flex;\n      flex-wrap: wrap;\n      gap: 8px;\n      margin-top: 10px;\n    \x7d\n    nav a\x7b\n      display: inline-block;\n      text-decoration: none;\n      color: var(--accent);\n      background: var(--accent-soft);\n      border: 1px solid rgba(47,111,235,.25);\n      padding: 6px 10px;\n      border-radius: 999px;\n      font-weight: 600;\n      font-size: .92rem;\n    \x7d\n    nav a:hover\x7b filter: brightness(0.98); text-decoration: underline; \x7d\n\n    ul, ol \x7b margin: 8px 0 0 22px; \x7d\n    li \x7b margin: 4px 0; \x7d\n\n    details\x7b\n      margin-top: 10px;\n      padding: 10px 12px;\n      border: 1px dashed rgba(15,23,42,.18);\n      border-radius: 12px;\n      background: rgba(255,255,255,.6);\n    \x7d\n    summary\x7b cursor: pointer; font-weight: 700; color: var(--text); \x7d\n\n    blockquote\x7b\n      margin: 10px 0;\n      padding: 10px 12px;\n      border-left: 4px solid rgba(47,111,235,.45);\n      background: rgba(47,111,235,.06);\n      border-radius: 10px;\n      color: #0f172a;\n    \x7d\n    pre\x7b\n      margin: 0;\n      padding: 10px 12px;\n      background: rgba(15,23,42,.06);\n      border: 1px solid rgba(15,23,42,.10);\n      border-radius: 10px;\n      overflow: auto;\n      font-family: ui-monospace, SFMono-Regular, Menlo, Monaco, Consolas, \"Liberation Mono\", \"Courier New\", monospace;\n      font-size: .92rem;\n      white-space: pre-wrap;\n    \x7d\n    code\x7b\n      font-family: ui-monospace, SFMono-Regular, Menlo, Monaco, Consolas, \"Liberation Mono\", \"Courier New\", monospace;\n      font-size: .92em;\n    \x7d\n\n    footer small\x7b color: var(--muted); \x7d\n\n    .flash\x7b animation: flashGlow .7s ease-out; \x7d\n    @keyframes flashGlow\x7b\n      0% \x7b box-shadow: 0 0 0 rgba(47,111,235,0); \x7d\n      40% \x7b box-shadow: 0 0 0 6px rgba(47,111,235,.18), 0 16px 36px rgba(47,111,235,.20); \x7d\n      100% \x7b box-shadow: 0 0 0 rgba(47,111,235,0); \x7d\n    \x7d\n  </style>\n"

/-- The embedded-stylesheet constant of the source (written here as two
adjacent literals for proof-size reasons; the concatenation is the
source text verbatim). -/
def CSS_BLOCK : String := CSS_BLOCK_A ++ CSS_BLOCK_B

def JS_BLOCK : String :=
  "\n  <script>\n    (function()\x7b\n      function focusTargetFromHash()\x7b\n        const id = location.hash ? location.hash.slice(1) : \"\";\n        if(!id) return;\n        const el = document.getElementById(id);\n        if(!el) return;\n        el.scrollIntoView(\x7b behavior: \"smooth\", block: \"start\" \x7d);\n        el.classList.add(\"flash\");\n        setTimeout(()=> el.classList.remove(\"flash\"), 700);\n      \x7d\n      window.addEventListener(\"load\", focusTargetFromHash);\n      window.addEventListener(\"hashchange\", focusTargetFromHash);\n    \x7d)();\n  </script>\n"



/-- `render_nav` from the source: one pill link per node (label = title,
falling back to the id), with a leading overview link. -/
def render_nav (nodes : List Node) : String :=
  let parts := ["<nav aria-label=\"Quest-Navigation\">", "<a href=\"#top\">Übersicht</a>"]
    ++ nodes.map (fun n =>
      let label := html_escape (if n.title.isEmpty then n.node_id else n.title)
      "<a href=\"#" ++ html_escape n.node_id ++ "\">" ++ label ++ "</a>")
    ++ ["</nav>"]
  String.intercalate "\n      " parts

/-- `render_meta_list` from the source: the six labelled meta fields, an
em-dash for an empty value. -/
def render_meta_list (meta : QuestMeta) : String :=
  let items := [("Questgeber", meta.quest_giver), ("Voraussetzung", meta.prerequisite),
    ("Art", meta.quest_type), ("Kurzbeschreibung", meta.meta_short),
    ("Belohnungen", meta.rewards), ("Wichtige Flags", meta.important_flags)]
  let lis := items.map (fun kv =>
    let v := if (pyStrip kv.2).isEmpty then "—" else pyStrip kv.2
    "<li><strong>" ++ html_escape kv.1 ++ ":</strong> " ++ html_escape v ++ "</li>")
  String.intercalate "\n        " lis

/-- `render_options` from the source: the numbered choice list of a node;
a target that is not a current node id gets the inline
`(Ziel unbekannt)` marker. -/
def render_options (node : Node) (node_ids : List String) : String :=
  if node.options.isEmpty then "<p><em>Keine Optionen.</em></p>"
  else
    let out := ["<h3>Optionen</h3>", "<ol>"]
      ++ node.options.map (fun opt =>
        let label := html_escape (if (pyStrip opt.label).isEmpty then "Option" else pyStrip opt.label)
        let target := pyStrip opt.target
        if !(node_ids.contains target) then
          "<li><a href=\"#" ++ html_escape (if target.isEmpty then "top" else target) ++ "\">"
            ++ label ++ "</a> <em style=\"color:#b42318;\">(Ziel unbekannt)</em></li>"
        else
          "<li><a href=\"#" ++ html_escape target ++ "\">" ++ label ++ "</a></li>")
      ++ ["</ol>"]
    String.intercalate "\n      " out

/-- `render_list_block` from the source. -/
def render_list_block (title : String) (items : List String) : String :=
  if items.isEmpty then ""
  else
    let lis := String.intercalate "\n        "
      (items.map (fun it => "<li>" ++ html_escape it ++ "</li>"))
    pyRstrip ("\n      <p><strong>" ++ html_escape title
      ++ ":</strong></p>\n      <ul>\n        " ++ lis ++ "\n      </ul>\n")

/-- `render_details` from the source. -/
def render_details (title : String) (items : List String) : String :=
  if items.isEmpty then ""
  else
    let lis := String.intercalate "\n          "
      (items.map (fun it => "<li>" ++ html_escape it ++ "</li>"))
    pyRstrip ("\n      <details>\n        <summary>" ++ html_escape title
      ++ "</summary>\n        <ul>\n          " ++ lis ++ "\n        </ul>\n      </details>\n")

/-- `render_node_section` from the source: one `<section>` per node with
the optional sub-blocks, the choice list and the back link. -/
def render_node_section (node : Node) (node_ids : List String) : String :=
  let h2 := html_escape (if (pyStrip node.title).isEmpty then node.node_id else pyStrip node.title)
  let scene := pyStrip node.scene
  let dialog := pyStrip node.dialog
  let content := pyStrip node.content
  let notes := pyStrip node.notes
  let parts := ["<section id=\"" ++ html_escape node.node_id ++ "\">", "  <h2>" ++ h2 ++ "</h2>"]
  let parts := parts ++ (if scene.isEmpty then [] else
    ["  <p><strong>Szene:</strong> " ++ html_escape scene ++ "</p>"])
  let parts := parts ++ (if content.isEmpty then [] else
    ["  <p><strong>Inhalt:</strong> " ++ html_escape content ++ "</p>"])
  let parts := parts ++ (if dialog.isEmpty then [] else
    ["  <p><strong>Dialog:</strong></p>", "  <blockquote>", "    <pre>",
      html_escape dialog, "    </pre>", "  </blockquote>"])
  let info_block := render_list_block "Wichtige Information" node.info_items
  let parts := parts ++ (if info_block.isEmpty then [] else [info_block])
  let tech_details := render_details "Technik/Flags" node.tech_flags
  let parts := parts ++ (if tech_details.isEmpty then [] else [tech_details])
  let outcomes_details := render_details "Enden/Outcomes (Notizblock)" node.outcomes
  let parts := parts ++ (if outcomes_details.isEmpty then [] else [outcomes_details])
  let parts := parts ++ [render_options node node_ids]
  let parts := parts ++ (if notes.isEmpty then [] else
    ["  <p><strong>Notizen:</strong> " ++ html_escape notes ++ "</p>"])
  let parts := parts ++ ["  <p><a href=\"#top\">↑ Zur Übersicht</a></p>", "</section>"]
  String.intercalate "\n    " parts

/-- The `top_section` f-string of `render_html` (the overview section with
the meta list and the link to the first node, `"top"` when there is none). -/
def render_top_section (meta : QuestMeta) (nodes : List Node) : String :=
  pyRstrip ("\n    <section id=\"top\">\n      <h2>Übersicht</h2>\n      <p><strong>Kurzbeschreibung:</strong> "
    ++ html_escape (if (pyStrip meta.short_description).isEmpty then "—" else pyStrip meta.short_description)
    ++ "</p>\n      <p><strong>Quest Metadaten</strong></p>\n      <ul>\n        "
    ++ render_meta_list meta
    ++ "\n      </ul>\n      <hr>\n      "
    ++ "<p><a href=\"#" ++ html_escape (match nodes with | [] => "top" | n :: _ => n.node_id)
    ++ "\">→ Zum Start</a></p>\n    </section>\n")

/-- First segment of `render_html`'s output: head boilerplate, the
generated `<title>`, and the first half of the stylesheet. -/
def render_html_seg1 (meta : QuestMeta) : String :=
  let title := pyStrip ("Quest-Präsentator: " ++ meta.quest_name)
  "<!doctype html>\n<html lang=\"de\">\n<head>\n  <meta charset=\"utf-8\" />\n  <meta name=\"viewport\" content=\"width=device-width,initial-scale=1\" />\n  <title>"
  ++ html_escape title ++ "</title>\n" ++ CSS_BLOCK_A

/-- Second segment of `render_html`'s output: the rest of the stylesheet,
the header with quest name, region and navigation list, the overview
section, and the node sections. -/
def render_html_seg2 (meta : QuestMeta) (nodes : List Node) : String :=
  let node_ids := nodes.map (fun n => n.node_id)
  let nav := render_nav nodes
  let top_section := render_top_section meta nodes
  let node_sections := String.intercalate "\n\n    "
    (nodes.map (fun n => render_node_section n node_ids))
  CSS_BLOCK_B ++ "\n</head>\n<body>\n\n  <header>\n    <h1>Quest: "
  ++ html_escape (if (pyStrip meta.quest_name).isEmpty then "—" else pyStrip meta.quest_name)
  ++ "</h1>\n    <p><strong>Region:</strong> "
  ++ html_escape (if (pyStrip meta.region).isEmpty then "—" else pyStrip meta.region)
  ++ "</p>\n    " ++ nav ++ "\n    <hr>\n  </header>\n\n  <main>\n" ++ top_section ++ "\n\n    "
  ++ node_sections

/-- The fixed closing `end` section and the footer opening, up to the
`Stand: ` stamp label. -/
def END_SECTION_LIT : String :=
  "\n\n    <section id=\"end\">\n      <h2>Ende / Notizen</h2>\n      <p>[Hier kannst du „Was der Spieler gelernt hat“, „Welche Weltinfos gesetzt wurden“ und „Follow-ups“ reinschreiben.]</p>\n      <p><a href=\"#top\">↑ Zur Übersicht</a></p>\n    </section>\n  </main>\n\n  <footer>\n    <hr>\n    <p><small>Quest-Präsentator — "

/-- The footer text following the version stamp. -/
def FOOTER_TAIL_LIT : String := "</small></p>\n  </footer>\n\n"

/-- The closing tags of the document. -/
def HTML_TAIL_LIT : String := "\n\n</body>\n</html>\n"

/-- Third segment of `render_html`'s output: the fixed closing `end`
section, the footer with the version stamp, and the optional script
block. -/
def render_html_seg3 (meta : QuestMeta) (include_js : Bool) (now : String) : String :=
  let version := if (pyStrip meta.version_stamp).isEmpty then now else pyStrip meta.version_stamp
  END_SECTION_LIT ++ "Stand: " ++ html_escape version ++ FOOTER_TAIL_LIT
  ++ (if include_js then JS_BLOCK else "") ++ HTML_TAIL_LIT

/-- `render_html` from the source.  `now` is the externally supplied
`now_stamp()` value (the renderer consults it only when the meta version
stamp is blank).  The output is assembled from three segments purely for
proof-size reasons: the split points are between adjacent characters of
the source f-string, so the concatenation is the source output verbatim. -/
def render_html (project : QuestProject) (include_js : Bool) (now : String) : String :=
  render_html_seg1 project.meta
    ++ (render_html_seg2 project.meta project.nodes
      ++ render_html_seg3 project.meta include_js now)

/-! ## Editor-level node operations -/

/-- Decimal representation of a natural number (the Python `str(i)` used by
the `f"knoten-{i}"` / `f"Knoten {i}"` formatting); fuel-based so the
definition is structural, with `n + 1` units of fuel always sufficient
because the value shrinks at each step (`n / 10 < n`). -/
def natToDecAux : Nat → Nat → List Char
  | 0, _ => []
  | fuel + 1, n =>
    if n < 10 then [Nat.digitChar n]
    else natToDecAux fuel (n / 10) ++ [Nat.digitChar (n % 10)]

/-- Python `str(n)` for a natural number. -/
def natToDec (n : Nat) : String := ⟨natToDecAux (n + 1) n⟩

/-- Decimal value of a digit list (used to invert `natToDec` in proofs). -/
def decVal (l : List Char) : Nat :=
  l.foldl (fun a c => 10 * a + (c.toNat - 48)) 0

/-- The id-generation loop of `QuestEditorApp._add_node`: starting at `i`,
the first index whose `f"knoten-{i}"` id is not yet taken.  `fuel` bounds
the iterations; `existing.length + 1` tries always meet a free id
(pigeonhole, proved below). -/
def findFresh (existing : List String) (i : Nat) : Nat → Nat
  | 0 => i
  | fuel + 1 =>
    if existing.contains ("knoten-" ++ natToDec i) then findFresh existing (i + 1) fuel
    else i

/-- `QuestEditorApp._add_node`, the model part: generate the fresh
`knoten-N` id, create the node with its default title and the single
placeholder option targeting `"end"`, and append it. -/
def _add_node (p : QuestProject) : QuestProject :=
  let existing := p.nodes.map (fun n => n.node_id)
  let i := findFresh existing 1 (existing.length + 1)
  let new_node : Node := ⟨"knoten-" ++ natToDec i, "Knoten " ++ natToDec i,
    "", "", "", [], [], [], "", [⟨"Weiter", "end"⟩]⟩
  { p with nodes := p.nodes ++ [new_node] }

/-- The index generated by `_add_node` for a given project (the value of
`i` after the while loop). -/
def freshN (p : QuestProject) : Nat :=
  findFresh (p.nodes.map (fun n => n.node_id)) 1
    ((p.nodes.map (fun n => n.node_id)).length + 1)

/-- The widget state read by `QuestEditorApp._apply_current_node`: the id
and title entries, the text areas, and the label/target rows of the
options tree. -/
structure NodeForm where
  raw_id : String
  title : String
  scene : String
  dialog : String
  content : String
  info : String
  tech : String
  outcomes : String
  notes : String
  opts : List (String × String)
deriving DecidableEq, Repr

/-- The one typed failure `_apply_current_node` reports: the sanitized id
already belongs to another node. -/
inductive ApplyError where
  | duplicateId
deriving DecidableEq, Repr

/-- `QuestEditorApp._apply_current_node`: `idx` is
`self.current_node_index` (`none` makes the method return unchanged).
Returns the reported error, if any, together with the post-state of
`self.project`.  (An out-of-range index would raise in the source and is
not modelled; the theorems below only use in-range indices.) -/
def apply_current_node (p : QuestProject) (idx : Option Nat) (f : NodeForm) :
    Option ApplyError × QuestProject :=
  match idx with
  | none => (none, p)
  | some i =>
    match p.nodes.get? i with
    | none => (none, p)
    | some n =>
      let node_id := sanitize_id f.raw_id
      let title := pyStrip f.title
      if node_id != n.node_id && (p.nodes.map (fun x => x.node_id)).contains node_id then
        (some ApplyError.duplicateId, p)
      else
        let n' : Node := ⟨node_id, if title.isEmpty then node_id else title,
          pyStrip f.scene, pyRstrip f.dialog, pyStrip f.content,
          lines_to_list f.info, lines_to_list f.tech, lines_to_list f.outcomes,
          pyStrip f.notes,
          f.opts.map (fun lt => ⟨pyStrip lt.1, sanitize_id (pyStrip lt.2)⟩)⟩
        (none, { p with nodes := p.nodes.set i n' })

/-! ## Substring machinery for the rendering claims -/

/-- `pat` is a prefix of `l`. -/
def startsWithL : List Char → List Char → Bool
  | [], _ => true
  | _ :: _, [] => false
  | p :: ps, c :: cs => p == c && startsWithL ps cs

/-- `pat` occurs as a contiguous substring of `l`. -/
def containsSub (pat : List Char) : List Char → Bool
  | [] => startsWithL pat []
  | c :: cs => startsWithL pat (c :: cs) || containsSub pat cs


/-! ## Auxiliary predicates and concrete instances used by the theorems -/

/-- The per-character escape map realized by `html_escape` (each of the
three special characters becomes its entity, every other character stays). -/
def escChar (c : Char) : List Char :=
  if c = '&' then ['&', 'a', 'm', 'p', ';']
  else if c = '<' then ['&', 'l', 't', ';']
  else if c = '>' then ['&', 'g', 't', ';']
  else [c]

/-- No two adjacent dashes. -/
def noDD : List Char → Bool
  | [] => true
  | [_] => true
  | a :: b :: rest => !(a == '-' && b == '-') && noDD (b :: rest)

/-- The first character, if any, is not a dash. -/
def headNotDash : List Char → Bool
  | [] => true
  | c :: _ => !(c == '-')

/-- The last character, if any, does not satisfy `p`. -/
def lastNot (p : Char → Bool) : List Char → Bool
  | [] => true
  | [c] => !(p c)
  | _ :: rest => lastNot p rest

/-- The model invariants of the data model: every node id is non-empty and
inside the id character class, and node ids are unique. -/
def graphInvariants (p : QuestProject) : Prop :=
  (∀ n ∈ p.nodes, n.node_id ≠ "" ∧ n.node_id.data.all isIdChar = true) ∧
    (p.nodes.map (fun n => n.node_id)).Nodup

instance (p : QuestProject) : Decidable (graphInvariants p) := by
  unfold graphInvariants; infer_instance

/-- A node whose single choice targets the reserved anchor `"end"`
(exactly what `_add_node` creates by default). -/
def endTargetNode : Node :=
  ⟨"start", "Start", "", "", "", [], [], [], "", [⟨"Weiter", "end"⟩]⟩

/-- A node whose title is the escaping test string of the specification. -/
def escTitleNode : Node :=
  ⟨"start", "<b>&\"x\"</b>", "", "", "", [], [], [], "", []⟩

/-- A one-node project around `escTitleNode` with an explicit version
stamp. -/
def escTitleProject : QuestProject :=
  ⟨{ version_stamp := "v1" }, [escTitleNode]⟩

/-- A two-node project used to exercise the claims about editor
operations: ids `start` and `b`. -/
def twoNodeProject : QuestProject :=
  ⟨{}, [⟨"start", "Start", "", "", "", [], [], [], "", []⟩,
        ⟨"b", "B", "", "", "", [], [], [], "", []⟩]⟩

/-- The widget state that renames the first node of `twoNodeProject` to
`"B"` (which sanitizes to the id `b` of the second node). -/
def renameToBForm : NodeForm :=
  ⟨"B", "Start", "", "", "", "", "", "", "", []⟩

/-- A small project satisfying all model invariants, for the codec
round-trip witness. -/
def witnessProject : QuestProject :=
  ⟨⟨"Ardea", "Norden", "Kurz", "Geber", "Voraussetzung", "Art", "MetaKurz",
     "Belohnung", "Flags", "v1"⟩,
   [⟨"start", "Start", "Szene", "Dialog", "Inhalt", ["i1", "i2"], ["t1"],
      ["o1"], "Notiz", [⟨"Go", "finish"⟩, ⟨"Back", "top"⟩]⟩,
    ⟨"finish", "Finish", "", "", "", [], [], [], "", []⟩]⟩


/-! ## General lemmas: string data and substring machinery -/

theorem data_append (s t : String) : (s ++ t).data = s.data ++ t.data := by
  cases s; cases t; rfl

theorem startsWithL_iff (p l : List Char) :
    startsWithL p l = true ↔ ∃ t, l = p ++ t := by
  induction p generalizing l with
  | nil => simp [startsWithL]
  | cons a ps ih =>
    cases l with
    | nil =>
      simp only [startsWithL, List.cons_append, Bool.false_eq_true, false_iff]
      rintro ⟨t, ht⟩
      exact List.noConfusion ht
    | cons c cs =>
      simp only [startsWithL, Bool.and_eq_true, beq_iff_eq, ih,
        List.cons_append, List.cons.injEq]
      constructor
      · rintro ⟨hac, t, ht⟩
        exact ⟨t, hac.symm, ht⟩
      · rintro ⟨t, hca, ht⟩
        exact ⟨hca.symm, t, ht⟩

theorem containsSub_iff (p l : List Char) :
    containsSub p l = true ↔ ∃ x y, l = x ++ (p ++ y) := by
  induction l with
  | nil =>
    simp only [containsSub, startsWithL_iff]
    constructor
    · rintro ⟨t, ht⟩
      exact ⟨[], t, ht⟩
    · rintro ⟨x, y, hxy⟩
      rcases List.append_eq_nil.mp hxy.symm with ⟨hx, hpy⟩
      exact ⟨y, by simp [hpy]⟩
  | cons c cs ih =>
    simp only [containsSub, Bool.or_eq_true, startsWithL_iff, ih]
    constructor
    · rintro (⟨t, ht⟩ | ⟨x, y, hxy⟩)
      · exact ⟨[], t, by simp [ht]⟩
      · exact ⟨c :: x, y, by simp [hxy]⟩
    · rintro ⟨x, y, hxy⟩
      cases x with
      | nil => exact Or.inl ⟨y, by simpa using hxy⟩
      | cons x0 xs =>
        simp only [List.cons_append, List.cons.injEq] at hxy
        exact Or.inr ⟨xs, y, hxy.2⟩

theorem containsSub_append_left {p b : List Char} (a : List Char)
    (h : containsSub p b = true) : containsSub p (a ++ b) = true := by
  rcases (containsSub_iff p b).mp h with ⟨x, y, hxy⟩
  exact (containsSub_iff p (a ++ b)).mpr ⟨a ++ x, y, by simp [hxy]⟩

theorem containsSub_append_right {p a : List Char} (b : List Char)
    (h : containsSub p a = true) : containsSub p (a ++ b) = true := by
  rcases (containsSub_iff p a).mp h with ⟨x, y, hxy⟩
  exact (containsSub_iff p (a ++ b)).mpr ⟨x, y ++ b, by simp [hxy]⟩

theorem containsSub_split (p a b : List Char)
    (h : containsSub p (a ++ b) = true) :
    containsSub p (a ++ b.take (p.length - 1)) = true ∨
      containsSub p b = true := by
  rcases (containsSub_iff p (a ++ b)).mp h with ⟨x, y, hxy⟩
  by_cases hlen : a.length ≤ x.length
  · right
    have hx : x.take a.length ++ x.drop a.length = x := List.take_append_drop _ x
    rw [← hx, List.append_assoc] at hxy
    have hlq : a.length = (x.take a.length).length := by
      simp [List.length_take, Nat.min_eq_left hlen]
    rcases List.append_inj hxy hlq with ⟨_, hb⟩
    exact (containsSub_iff p b).mpr ⟨x.drop a.length, y, hb⟩
  · left
    push_neg at hlen
    by_cases hble : b.length ≤ p.length - 1
    · rwa [List.take_of_length_le hble]
    · have hal : a.length ≤ a.length + (p.length - 1) := Nat.le_add_right _ _
      have hxm : x.length ≤ a.length + (p.length - 1) :=
        le_trans (le_of_lt hlen) hal
      have hpm : p.length ≤ a.length + (p.length - 1) - x.length := by omega
      have htakeL : (a ++ b).take (a.length + (p.length - 1)) =
          a ++ b.take (p.length - 1) := by
        rw [List.take_append_eq_append_take, List.take_of_length_le hal,
          Nat.add_sub_cancel_left]
      have htakeR : (x ++ (p ++ y)).take (a.length + (p.length - 1)) =
          x ++ (p ++ y.take (a.length + (p.length - 1) - x.length - p.length)) := by
        rw [List.take_append_eq_append_take, List.take_of_length_le hxm,
          List.take_append_eq_append_take, List.take_of_length_le hpm]
      have hkey : a ++ b.take (p.length - 1) =
          x ++ (p ++ y.take (a.length + (p.length - 1) - x.length - p.length)) := by
        rw [← htakeL, hxy, htakeR]
      exact (containsSub_iff _ _).mpr ⟨x, _, hkey⟩

theorem containsSub_chain_false (p a b : List Char)
    (h1 : containsSub p (a ++ b.take (p.length - 1)) = false)
    (h2 : containsSub p b = false) : containsSub p (a ++ b) = false := by
  cases h : containsSub p (a ++ b) with
  | false => rfl
  | true =>
    rcases containsSub_split p a b h with hc | hc
    · rw [h1] at hc; exact Bool.noConfusion hc
    · rw [h2] at hc; exact Bool.noConfusion hc

theorem startsWithL_append {p a : List Char} (b : List Char)
    (h : startsWithL p a = true) : startsWithL p (a ++ b) = true := by
  rcases (startsWithL_iff p a).mp h with ⟨t, ht⟩
  exact (startsWithL_iff p (a ++ b)).mpr ⟨t ++ b, by simp [ht]⟩


/-! ## The persistence codec round trip (C1) and the empty-document
behaviour (C3) -/

theorem option_roundtrip (o : QOption) :
    option_from_dict (option_to_dict o) = o := by
  cases o; rfl

theorem map_option_roundtrip (l : List QOption) :
    l.map (fun o => option_from_dict (option_to_dict o)) = l := by
  induction l with
  | nil => rfl
  | cons o t ih => simp [option_roundtrip, ih]

theorem node_roundtrip (n : Node) : node_from_dict (node_to_dict n) = n := by
  cases n
  simp [node_to_dict, node_from_dict, Function.comp_def, map_option_roundtrip]

theorem map_node_roundtrip (l : List Node) :
    l.map (fun n => node_from_dict (node_to_dict n)) = l := by
  induction l with
  | nil => rfl
  | cons n t ih => simp [node_roundtrip, ih]

/-- C1: for every quest graph satisfying the model invariants (ids
non-empty, in the id character class, unique), decoding the encoding
yields a structurally equal graph: all `QuestMeta` fields, the node
sequence in order, every node field, and each node's choice list in order
with label and target. -/
theorem codec_roundtrip (p : QuestProject) (hinv : graphInvariants p) :
    project_from_jsonable (project_to_jsonable p) = p := by
  cases p with
  | mk meta nodes =>
    cases meta
    simp [project_to_jsonable, project_from_jsonable, Function.comp_def,
      map_node_roundtrip]

theorem codec_roundtrip_witness :
    graphInvariants witnessProject ∧
      project_from_jsonable (project_to_jsonable witnessProject) =
        witnessProject :=
  ⟨by decide, codec_roundtrip witnessProject (by decide)⟩

/-- C3, counterexample: `project_from_jsonable` itself does not synthesize
a `start` node — decoding a well-formed document with an empty node
sequence yields a graph with no nodes at all. -/
theorem decode_empty_nodes_no_start :
    (project_from_jsonable ⟨none, some []⟩).nodes = [] := rfl

/-- C3, amended: the decoded node sequence of an empty document is empty;
it is the surrounding loader `_load_project` that appends the default
`start` node after decoding, so every loaded graph has at least one
node. -/
theorem load_project_synthesizes_start (d : ProjectDict)
    (h : (project_from_jsonable d).nodes = []) :
    load_project d = ⟨(project_from_jsonable d).meta,
        [⟨"start", "Start", "", "", "", [], [], [], "", []⟩]⟩ ∧
      ∀ d2 : ProjectDict, (load_project d2).nodes ≠ [] := by
  constructor
  · simp [load_project, h]
  · intro d2
    simp only [load_project]
    split
    · simp
    · next h2 => simpa [List.isEmpty_iff] using h2

theorem load_project_synthesizes_start_witness :
    (project_from_jsonable ⟨none, some []⟩).nodes = [] ∧
      (load_project ⟨none, some []⟩ = ⟨(project_from_jsonable ⟨none, some []⟩).meta,
          [⟨"start", "Start", "", "", "", [], [], [], "", []⟩]⟩ ∧
        ∀ d2 : ProjectDict, (load_project d2).nodes ≠ []) :=
  ⟨rfl, load_project_synthesizes_start ⟨none, some []⟩ rfl⟩


/-! ## The reserved anchors and the unknown-target marker (C2) -/

/-- C2, divergence evidence: `render_options` checks a choice target only
against the current node ids, never against the reserved anchors, so the
default choice targeting the reserved anchor `end` (the one `_add_node`
itself creates) is rendered with the `(Ziel unbekannt)` marker even
though the document always emits an `end` section. -/
theorem reserved_end_target_marked_unknown :
    render_options endTargetNode ["start"] =
      "<h3>Optionen</h3>\n      <ol>\n      <li><a href=\"#end\">Weiter</a> <em style=\"color:#b42318;\">(Ziel unbekannt)</em></li>\n      </ol>" ∧
      containsSub "(Ziel unbekannt)".data
        (render_options endTargetNode ["start"]).data = true := by
  constructor
  · decide
  · decide


/-! ## The identifier sanitizer: totality (C4) -/

theorem sanitize_id_eq (s : String) :
    sanitize_id s =
      if (sanitizeCore s.data).isEmpty then "node" else ⟨sanitizeCore s.data⟩ := rfl

theorem subNonIdAux_mem (flag : Bool) (l : List Char) :
    ∀ c ∈ subNonIdAux flag l, isIdChar c = true := by
  induction l generalizing flag with
  | nil => intro c hc; simp [subNonIdAux] at hc
  | cons a t ih =>
    intro c hc
    cases ha : isIdChar a with
    | true =>
      simp only [subNonIdAux, ha, if_true] at hc
      rcases List.mem_cons.mp hc with rfl | hmem
      · exact ha
      · exact ih false c hmem
    | false =>
      cases flag with
      | true =>
        simp only [subNonIdAux, ha, Bool.false_eq_true, if_false, if_true] at hc
        exact ih true c hc
      | false =>
        simp only [subNonIdAux, ha, Bool.false_eq_true, if_false] at hc
        rcases List.mem_cons.mp hc with rfl | hmem
        · decide
        · exact ih true c hmem

theorem collapseDashAux_mem (flag : Bool) (l : List Char) :
    ∀ c ∈ collapseDashAux flag l, c ∈ l ∨ c = '-' := by
  induction l generalizing flag with
  | nil => intro c hc; simp [collapseDashAux] at hc
  | cons a t ih =>
    intro c hc
    by_cases ha : a = '-'
    · subst ha
      cases flag with
      | true =>
        simp only [collapseDashAux, if_pos rfl, if_true] at hc
        rcases ih true c hc with hmem | h
        · exact Or.inl (List.mem_cons_of_mem _ hmem)
        · exact Or.inr h
      | false =>
        simp only [collapseDashAux, if_pos rfl, Bool.false_eq_true, if_false] at hc
        rcases List.mem_cons.mp hc with rfl | hmem
        · exact Or.inr rfl
        · rcases ih true c hmem with hmem2 | h
          · exact Or.inl (List.mem_cons_of_mem _ hmem2)
          · exact Or.inr h
    · simp only [collapseDashAux, if_neg ha] at hc
      rcases List.mem_cons.mp hc with rfl | hmem
      · exact Or.inl (List.mem_cons_self _ _)
      · rcases ih false c hmem with hmem2 | h
        · exact Or.inl (List.mem_cons_of_mem _ hmem2)
        · exact Or.inr h

theorem rstripP_mem (p : Char → Bool) (l : List Char) :
    ∀ c ∈ rstripP p l, c ∈ l := by
  induction l with
  | nil => intro c hc; simp [rstripP] at hc
  | cons a t ih =>
    intro c hc
    simp only [rstripP] at hc
    split at hc
    · simp at hc
    · rcases List.mem_cons.mp hc with rfl | hmem
      · exact List.mem_cons_self _ _
      · exact List.mem_cons_of_mem _ (ih c hmem)

theorem dropWhile_mem {p : Char → Bool} {l : List Char} {c : Char}
    (h : c ∈ l.dropWhile p) : c ∈ l :=
  (List.dropWhile_sublist (l := l) p).subset h

theorem sanitizeCore_allId (l : List Char) :
    ∀ c ∈ sanitizeCore l, isIdChar c = true := by
  intro c hc
  unfold sanitizeCore stripDashes at hc
  have h2 := dropWhile_mem (rstripP_mem _ _ c hc)
  rcases collapseDashAux_mem false _ c h2 with hmem | rfl
  · exact subNonIdAux_mem false _ c hmem
  · decide

/-- C4: `sanitize_id` is total and always yields a non-empty identifier
matching `^[a-z0-9_-]+$` (falling back to the literal `"node"`). -/
theorem sanitize_id_valid (s : String) :
    sanitize_id s ≠ "" ∧ (sanitize_id s).data.all isIdChar = true := by
  rw [sanitize_id_eq]
  by_cases h : (sanitizeCore s.data).isEmpty
  · rw [if_pos h]
    exact ⟨by decide, by decide⟩
  · rw [if_neg h]
    constructor
    · intro hcon
      apply h
      rw [List.isEmpty_iff]
      have : (String.mk (sanitizeCore s.data)).data = ("" : String).data := by
        rw [hcon]
      exact this
    · rw [List.all_eq_true]
      intro c hc
      exact sanitizeCore_allId s.data c hc


/-! ## The identifier sanitizer: idempotence (C5) -/

theorem isIdChar_iff (c : Char) : isIdChar c = true ↔
    (97 ≤ c.toNat ∧ c.toNat ≤ 122) ∨ (48 ≤ c.toNat ∧ c.toNat ≤ 57) ∨
      c.toNat = 45 ∨ c.toNat = 95 := by
  simp [isIdChar, Bool.or_eq_true, Bool.and_eq_true, decide_eq_true_eq,
    beq_iff_eq, or_assoc]

theorem isPyWs_iff (c : Char) : isPyWs c = true ↔
    c.toNat = 32 ∨ (9 ≤ c.toNat ∧ c.toNat ≤ 13) ∨
      (28 ≤ c.toNat ∧ c.toNat ≤ 31) ∨ c.toNat = 133 ∨ c.toNat = 160 := by
  simp [isPyWs, Bool.or_eq_true, Bool.and_eq_true, decide_eq_true_eq,
    beq_iff_eq, or_assoc]

theorem idChar_not_ws {c : Char} (h : isIdChar c = true) : isPyWs c = false := by
  cases hw : isPyWs c with
  | false => rfl
  | true =>
    rw [isIdChar_iff] at h
    rw [isPyWs_iff] at hw
    omega

theorem idChar_lower_fix {c : Char} (h : isIdChar c = true) :
    pyLowerChar c = c := by
  have h' := (isIdChar_iff c).mp h
  have h1 : ¬ ((65 ≤ c.toNat && c.toNat ≤ 90) = true) := by
    simp only [Bool.and_eq_true, decide_eq_true_eq, not_and]
    omega
  have h2 : ¬ (c = 'Ä') := fun hc => absurd h (by subst hc; decide)
  have h3 : ¬ (c = 'Ö') := fun hc => absurd h (by subst hc; decide)
  have h4 : ¬ (c = 'Ü') := fun hc => absurd h (by subst hc; decide)
  have h5 : ¬ (c = 'ẞ') := fun hc => absurd h (by subst hc; decide)
  unfold pyLowerChar
  rw [if_neg h1, if_neg h2, if_neg h3, if_neg h4, if_neg h5]

theorem idChar_not_umlaut {c : Char} (h : isIdChar c = true) :
    ¬ (c = 'ä') ∧ ¬ (c = 'ö') ∧ ¬ (c = 'ü') ∧ ¬ (c = 'ß') :=
  ⟨fun hc => absurd h (by subst hc; decide),
   fun hc => absurd h (by subst hc; decide),
   fun hc => absurd h (by subst hc; decide),
   fun hc => absurd h (by subst hc; decide)⟩

theorem dropWhile_eq_self_of (p : Char → Bool) (l : List Char)
    (h : ∀ c ∈ l, p c = false) : l.dropWhile p = l := by
  cases l with
  | nil => rfl
  | cons a t => simp [List.dropWhile_cons, h a (List.mem_cons_self _ _)]

theorem rstripP_eq_self_of (p : Char → Bool) (l : List Char)
    (h : ∀ c ∈ l, p c = false) : rstripP p l = l := by
  induction l with
  | nil => rfl
  | cons a t ih =>
    have ht := ih (fun c hc => h c (List.mem_cons_of_mem _ hc))
    simp [rstripP, ht, h a (List.mem_cons_self _ _)]

theorem map_eq_self_of (f : Char → Char) (l : List Char)
    (h : ∀ c ∈ l, f c = c) : l.map f = l := by
  induction l with
  | nil => rfl
  | cons a t ih =>
    simp [h a (List.mem_cons_self _ _),
      ih (fun c hc => h c (List.mem_cons_of_mem _ hc))]

theorem replaceChar_eq_self_of (pat : Char) (rep : List Char) (l : List Char)
    (h : ∀ c ∈ l, ¬ (c = pat)) : replaceChar pat rep l = l := by
  induction l with
  | nil => rfl
  | cons a t ih =>
    simp only [replaceChar, List.flatMap_cons] at *
    rw [if_neg (h a (List.mem_cons_self _ _)),
      ih (fun c hc => h c (List.mem_cons_of_mem _ hc))]
    rfl

theorem subNonIdAux_eq_self_of (flag : Bool) (l : List Char)
    (h : ∀ c ∈ l, isIdChar c = true) : subNonIdAux flag l = l := by
  induction l generalizing flag with
  | nil => rfl
  | cons a t ih =>
    simp [subNonIdAux, h a (List.mem_cons_self _ _),
      ih false (fun c hc => h c (List.mem_cons_of_mem _ hc))]

theorem noDD_tail {a : Char} {t : List Char} (h : noDD (a :: t) = true) :
    noDD t = true := by
  cases t with
  | nil => rfl
  | cons b t' =>
    have h2 := h
    unfold noDD at h2
    rw [Bool.and_eq_true] at h2
    exact h2.2

theorem noDD_cons_head {a b : Char} {t : List Char}
    (h : noDD (a :: b :: t) = true) : (a == '-' && b == '-') = false := by
  unfold noDD at h
  rw [Bool.and_eq_true] at h
  have h1 := h.1
  cases hb : (a == '-' && b == '-') with
  | false => rfl
  | true => rw [hb] at h1; exact Bool.noConfusion h1

theorem collapseDashAux_eq_self_of (l : List Char) (h : noDD l = true) :
    collapseDashAux false l = l ∧
      (headNotDash l = true → collapseDashAux true l = l) := by
  induction l with
  | nil => exact ⟨rfl, fun _ => rfl⟩
  | cons a t ih =>
    obtain ⟨ih1, ih2⟩ := ih (noDD_tail h)
    by_cases ha : a = '-'
    · subst ha
      have hh : headNotDash t = true := by
        cases t with
        | nil => rfl
        | cons b t' =>
          have hb := noDD_cons_head h
          simp only [headNotDash]
          simp only [beq_self_eq_true, Bool.true_and] at hb
          simp [hb]
      constructor
      · simp [collapseDashAux, ih2 hh]
      · intro hhead
        simp [headNotDash] at hhead
    · constructor
      · simp [collapseDashAux, ha, ih1]
      · intro _
        simp [collapseDashAux, ha, ih1]

theorem dropWhile_dash_eq_self_of (l : List Char)
    (h : headNotDash l = true) : l.dropWhile (fun c => c == '-') = l := by
  cases l with
  | nil => rfl
  | cons a t =>
    simp only [headNotDash, Bool.not_eq_true'] at h
    simp [List.dropWhile_cons, h]


theorem rstripP_cons (p : Char → Bool) (a : Char) (t : List Char) :
    rstripP p (a :: t) =
      if (rstripP p t).isEmpty && p a then [] else a :: rstripP p t := rfl

theorem rstripP_dash_eq_self_of (p : Char → Bool) (l : List Char)
    (h : lastNot p l = true) : rstripP p l = l := by
  induction l with
  | nil => rfl
  | cons a t ih =>
    cases t with
    | nil =>
      simp only [lastNot, Bool.not_eq_true'] at h
      rw [rstripP_cons]
      simp [h, rstripP]
    | cons b t' =>
      have ht : rstripP p (b :: t') = b :: t' := ih h
      rw [rstripP_cons, ht]
      simp

theorem collapseDashAux_headNotDash (l : List Char) :
    headNotDash (collapseDashAux true l) = true := by
  induction l with
  | nil => rfl
  | cons a t ih =>
    by_cases ha : a = '-'
    · subst ha; simpa [collapseDashAux] using ih
    · simp [collapseDashAux, ha, headNotDash]

theorem collapseDashAux_noDD (flag : Bool) (l : List Char) :
    noDD (collapseDashAux flag l) = true := by
  induction l generalizing flag with
  | nil => cases flag <;> rfl
  | cons a t ih =>
    by_cases ha : a = '-'
    · subst ha
      cases flag with
      | true => simpa [collapseDashAux] using ih true
      | false =>
        have hh := collapseDashAux_headNotDash t
        have hn := ih true
        simp only [collapseDashAux, if_pos rfl, Bool.false_eq_true, if_false]
        cases hc : collapseDashAux true t with
        | nil => rfl
        | cons b r =>
          rw [hc] at hh hn
          show (!('-' == '-' && b == '-') && noDD (b :: r)) = true
          rw [Bool.and_eq_true]
          constructor
          · simp only [headNotDash, Bool.not_eq_true'] at hh
            simp [hh]
          · exact hn
    · have hn := ih false
      simp only [collapseDashAux, if_neg ha]
      cases hc : collapseDashAux false t with
      | nil => rfl
      | cons b r =>
        rw [hc] at hn
        show (!(a == '-' && b == '-') && noDD (b :: r)) = true
        rw [Bool.and_eq_true]
        refine ⟨?_, hn⟩
        have hb : (a == '-') = false := by simp [ha]
        simp [hb]

theorem rstripP_take (p : Char → Bool) (l : List Char) :
    ∃ k, rstripP p l = l.take k := by
  induction l with
  | nil => exact ⟨0, rfl⟩
  | cons a t ih =>
    rcases ih with ⟨k, hk⟩
    cases hcnd : ((rstripP p t).isEmpty && p a) with
    | true => exact ⟨0, by rw [rstripP_cons, hcnd]; simp⟩
    | false => exact ⟨k + 1, by rw [rstripP_cons, hcnd]; simp [hk]⟩

theorem noDD_take (l : List Char) (k : Nat) (h : noDD l = true) :
    noDD (l.take k) = true := by
  induction l generalizing k with
  | nil => cases k <;> rfl
  | cons a t ih =>
    cases k with
    | zero => rfl
    | succ k1 =>
      simp only [List.take_succ_cons]
      cases t with
      | nil => cases k1 <;> rfl
      | cons b t2 =>
        cases k1 with
        | zero => rfl
        | succ k2 =>
          simp only [List.take_succ_cons]
          show (!(a == '-' && b == '-') && noDD (b :: List.take k2 t2)) = true
          rw [Bool.and_eq_true]
          constructor
          · have hb := noDD_cons_head h
            simp [hb]
          · simpa [List.take_succ_cons] using ih (k2 + 1) (noDD_tail h)

theorem headNotDash_take (l : List Char) (k : Nat)
    (h : headNotDash l = true) : headNotDash (l.take k) = true := by
  cases l with
  | nil => cases k <;> rfl
  | cons a t =>
    cases k with
    | zero => rfl
    | succ k1 => simpa [List.take_succ_cons, headNotDash] using h

theorem noDD_dropWhile (q : Char → Bool) (l : List Char) (h : noDD l = true) :
    noDD (l.dropWhile q) = true := by
  induction l with
  | nil => rfl
  | cons a t ih =>
    rw [List.dropWhile_cons]
    split
    · exact ih (noDD_tail h)
    · exact h

theorem dropWhile_headNot (q : Char → Bool) (l : List Char) :
    ∀ c t, l.dropWhile q = c :: t → q c = false := by
  induction l with
  | nil => intro c t h; exact absurd h (by simp)
  | cons a t1 ih =>
    intro c t h
    rw [List.dropWhile_cons] at h
    split at h
    · exact ih c t h
    · next hq =>
      cases h
      exact Bool.eq_false_iff.mpr hq

theorem rstripP_lastNot (p : Char → Bool) (l : List Char) :
    lastNot p (rstripP p l) = true := by
  induction l with
  | nil => rfl
  | cons a t ih =>
    rw [rstripP_cons]
    split
    · rfl
    · next hcond =>
      cases hr : rstripP p t with
      | nil =>
        rw [hr] at hcond
        simp only [List.isEmpty_nil, Bool.true_and] at hcond
        simp only [lastNot, Bool.not_eq_true']
        exact Bool.eq_false_iff.mpr hcond
      | cons b r2 =>
        rw [hr] at ih
        exact ih


theorem stripDashes_normal (m : List Char) (hdd : noDD m = true) :
    noDD (stripDashes m) = true ∧ headNotDash (stripDashes m) = true ∧
      lastNot (fun c => c == '-') (stripDashes m) = true := by
  unfold stripDashes
  have hdd2 : noDD (m.dropWhile (fun c => c == '-')) = true :=
    noDD_dropWhile _ _ hdd
  have hhd : headNotDash (m.dropWhile (fun c => c == '-')) = true := by
    cases hdw : m.dropWhile (fun c => c == '-') with
    | nil => rfl
    | cons c t =>
      have hc := dropWhile_headNot (fun c => c == '-') m c t hdw
      simp only [headNotDash, Bool.not_eq_true']
      exact hc
  rcases rstripP_take (fun c => c == '-') (m.dropWhile (fun c => c == '-'))
    with ⟨k, hk⟩
  refine ⟨?_, ?_, ?_⟩
  · rw [hk]; exact noDD_take _ _ hdd2
  · rw [hk]; exact headNotDash_take _ _ hhd
  · exact rstripP_lastNot _ _

theorem sanitizeCore_normal (l : List Char) :
    noDD (sanitizeCore l) = true ∧ headNotDash (sanitizeCore l) = true ∧
      lastNot (fun c => c == '-') (sanitizeCore l) = true := by
  unfold sanitizeCore
  exact stripDashes_normal _ (collapseDashAux_noDD _ _)

theorem sanitizeCore_fix (l : List Char)
    (hid : ∀ c ∈ l, isIdChar c = true) (hdd : noDD l = true)
    (hh : headNotDash l = true)
    (hl : lastNot (fun c => c == '-') l = true) : sanitizeCore l = l := by
  have hws : ∀ c ∈ l, isPyWs c = false := fun c hc => idChar_not_ws (hid c hc)
  unfold sanitizeCore pyStripList stripDashes
  rw [dropWhile_eq_self_of _ _ hws, rstripP_eq_self_of _ _ hws,
    map_eq_self_of _ _ (fun c hc => idChar_lower_fix (hid c hc)),
    replaceChar_eq_self_of _ _ _ (fun c hc => (idChar_not_umlaut (hid c hc)).1),
    replaceChar_eq_self_of _ _ _ (fun c hc => (idChar_not_umlaut (hid c hc)).2.1),
    replaceChar_eq_self_of _ _ _
      (fun c hc => (idChar_not_umlaut (hid c hc)).2.2.1),
    replaceChar_eq_self_of _ _ _
      (fun c hc => (idChar_not_umlaut (hid c hc)).2.2.2),
    subNonIdAux_eq_self_of _ _ hid, (collapseDashAux_eq_self_of _ hdd).1,
    dropWhile_dash_eq_self_of _ hh, rstripP_dash_eq_self_of _ _ hl]

/-- C5: the identifier sanitizer is idempotent. -/
theorem sanitize_id_idem (s : String) :
    sanitize_id (sanitize_id s) = sanitize_id s := by
  rw [sanitize_id_eq s]
  by_cases h : (sanitizeCore s.data).isEmpty
  · rw [if_pos h]
    decide
  · rw [if_neg h]
    have hdata : (String.mk (sanitizeCore s.data)).data = sanitizeCore s.data :=
      rfl
    rw [sanitize_id_eq ⟨sanitizeCore s.data⟩, hdata]
    obtain ⟨hdd, hhd, hln⟩ := sanitizeCore_normal s.data
    rw [sanitizeCore_fix _ (sanitizeCore_allId s.data) hdd hhd hln]
    rw [if_neg h]


/-! ## Structure of the rendered overview section -/

theorem containsSub_take (p l : List Char) (k : Nat)
    (h : containsSub p (l.take k) = true) : containsSub p l = true := by
  have h2 := containsSub_append_right (l.drop k) h
  rwa [List.take_append_drop] at h2

theorem rstripP_append_of_ne (p : Char → Bool) (a b : List Char)
    (h : rstripP p b ≠ []) : rstripP p (a ++ b) = a ++ rstripP p b := by
  induction a with
  | nil => rfl
  | cons c a2 ih =>
    rw [List.cons_append, rstripP_cons, ih]
    have hne : (a2 ++ rstripP p b).isEmpty = false := by
      rw [Bool.eq_false_iff, Ne, List.isEmpty_iff, List.append_eq_nil]
      intro hcon
      exact h hcon.2
    simp [hne]

theorem rstripP_append_ne (p : Char → Bool) (a b : List Char)
    (h : rstripP p b ≠ []) : rstripP p (a ++ b) ≠ [] := by
  rw [rstripP_append_of_ne p a b h]
  simp [List.append_eq_nil, h]

set_option maxRecDepth 100000 in
/-- The character data of the rendered overview section: the trailing
strip of the `top_section` f-string only removes the final newline of the
closing literal, whatever the meta record and node list are. -/
theorem render_top_section_data (meta : QuestMeta) (nodes : List Node) :
    (render_top_section meta nodes).data =
      ("\n    <section id=\"top\">\n      <h2>Übersicht</h2>\n      <p><strong>Kurzbeschreibung:</strong> " : String).data ++
      ((html_escape (if (pyStrip meta.short_description).isEmpty then "—"
          else pyStrip meta.short_description)).data ++
      (("</p>\n      <p><strong>Quest Metadaten</strong></p>\n      <ul>\n        " : String).data ++
      ((render_meta_list meta).data ++
      (("\n      </ul>\n      <hr>\n      " : String).data ++
      (("<p><a href=\"#" : String).data ++
      ((html_escape (match nodes with | [] => "top" | n :: _ => n.node_id)).data ++
      ("\">→ Zum Start</a></p>\n    </section>" : String).data)))))) := by
  have h0 : rstripP isPyWs
      ("\">→ Zum Start</a></p>\n    </section>\n" : String).data ≠ [] := by
    decide
  have h1 := rstripP_append_ne isPyWs
    (html_escape (match nodes with | [] => "top" | n :: _ => n.node_id)).data _ h0
  have h2 := rstripP_append_ne isPyWs ("<p><a href=\"#" : String).data _ h1
  have h3 := rstripP_append_ne isPyWs
    ("\n      </ul>\n      <hr>\n      " : String).data _ h2
  have h4 := rstripP_append_ne isPyWs (render_meta_list meta).data _ h3
  have h5 := rstripP_append_ne isPyWs
    ("</p>\n      <p><strong>Quest Metadaten</strong></p>\n      <ul>\n        " : String).data _ h4
  have h6 := rstripP_append_ne isPyWs
    (html_escape (if (pyStrip meta.short_description).isEmpty then "—"
      else pyStrip meta.short_description)).data _ h5
  have hTL : rstripP isPyWs
      ("\">→ Zum Start</a></p>\n    </section>\n" : String).data =
      ("\">→ Zum Start</a></p>\n    </section>" : String).data := by decide
  simp only [render_top_section, pyRstrip, data_append, List.append_assoc]
  rw [rstripP_append_of_ne _ _ _ h6, rstripP_append_of_ne _ _ _ h5,
    rstripP_append_of_ne _ _ _ h4, rstripP_append_of_ne _ _ _ h3,
    rstripP_append_of_ne _ _ _ h2, rstripP_append_of_ne _ _ _ h1,
    rstripP_append_of_ne _ _ _ h0, hTL]

/-! ## Escaping (C6) -/

theorem replaceChar_append (pat : Char) (rep : List Char) (a b : List Char) :
    replaceChar pat rep (a ++ b) =
      replaceChar pat rep a ++ replaceChar pat rep b := by
  simp [replaceChar]

theorem escape_chain (l : List Char) :
    replaceChar '>' ['&', 'g', 't', ';']
        (replaceChar '<' ['&', 'l', 't', ';']
          (replaceChar '&' ['&', 'a', 'm', 'p', ';'] l)) =
      l.flatMap escChar := by
  induction l with
  | nil => rfl
  | cons c t ih =>
    have h1 : replaceChar '&' ['&', 'a', 'm', 'p', ';'] (c :: t) =
        (if c = '&' then ['&', 'a', 'm', 'p', ';'] else [c]) ++
          replaceChar '&' ['&', 'a', 'm', 'p', ';'] t := by
      simp [replaceChar, List.flatMap_cons]
    rw [h1, replaceChar_append, replaceChar_append, ih, List.flatMap_cons]
    congr 1
    by_cases ha : c = '&'
    · subst ha; decide
    · by_cases hl : c = '<'
      · subst hl; decide
      · by_cases hg : c = '>'
        · subst hg; decide
        · simp [replaceChar, escChar, List.flatMap_cons, ha, hl, hg]

theorem html_escape_flatMap (s : String) :
    html_escape s = ⟨s.data.flatMap escChar⟩ := by
  unfold html_escape
  exact congrArg String.mk (escape_chain s.data)

set_option maxRecDepth 100000 in
/-- C6: rendering a graph whose node title is `<b>&"x"</b>` yields the
escaped literal and no unescaped `<b>` anywhere in the document, and in
general `html_escape` rewrites every single occurrence of `&`, `<`, `>`
in user-supplied text to its entity. -/
theorem render_escapes_title :
    containsSub "&lt;b&gt;&amp;\"x\"&lt;/b&gt;".data
        (render_html escTitleProject true "").data = true ∧
      containsSub "<b>".data (render_html escTitleProject true "").data = false ∧
      ∀ s : String, html_escape s = ⟨s.data.flatMap escChar⟩ := by
  refine ⟨?_, ?_, fun s => html_escape_flatMap s⟩
  · simp only [render_html, render_html_seg1, render_html_seg2,
      render_html_seg3, escTitleProject, escTitleNode, data_append,
      List.append_assoc]
    repeat
      first
        | exact containsSub_append_right _ (by decide)
        | apply containsSub_append_left
  · simp only [render_html, render_html_seg1, render_html_seg2,
      render_html_seg3, escTitleProject, escTitleNode,
      render_top_section_data, data_append, List.append_assoc]
    repeat apply containsSub_chain_false _ _ _ (by decide)
    decide

/-! ## Rename collision (C7) -/

/-- C7: renaming a node to a raw string whose sanitized form equals the id
of a different node is rejected with `DuplicateIdentifier` and the project
is returned unchanged — every node id (indeed every field) as before. -/
theorem apply_duplicate_id_rejected (p : QuestProject) (i : Nat)
    (f : NodeForm) (n : Node) (hn : p.nodes.get? i = some n)
    (hne : sanitize_id f.raw_id ≠ n.node_id)
    (hmem : sanitize_id f.raw_id ∈ p.nodes.map (fun x => x.node_id)) :
    apply_current_node p (some i) f = (some ApplyError.duplicateId, p) := by
  have hcond : (sanitize_id f.raw_id != n.node_id &&
      (p.nodes.map (fun x => x.node_id)).contains (sanitize_id f.raw_id))
      = true := by
    rw [Bool.and_eq_true]
    exact ⟨bne_iff_ne.mpr hne, by simpa using hmem⟩
  simp only [apply_current_node, hn]
  rw [hcond]
  simp

theorem apply_duplicate_id_rejected_witness :
    apply_current_node twoNodeProject (some 0) renameToBForm =
      (some ApplyError.duplicateId, twoNodeProject) :=
  apply_duplicate_id_rejected twoNodeProject 0 renameToBForm
    ⟨"start", "Start", "", "", "", [], [], [], "", []⟩
    (by decide) (by decide) (by decide)

/-! ## Fresh-id generation of `_add_node` (C8) -/

theorem digitChar_toNat {n : Nat} (h : n < 10) :
    (Nat.digitChar n).toNat = 48 + n := by
  interval_cases n <;> rfl

theorem decVal_append_digit (l : List Char) (c : Char) :
    decVal (l ++ [c]) = 10 * decVal l + (c.toNat - 48) := by
  unfold decVal
  rw [List.foldl_append]
  rfl

theorem natToDecAux_val (fuel n : Nat) (h : n < fuel) :
    decVal (natToDecAux fuel n) = n := by
  induction fuel generalizing n with
  | zero => omega
  | succ f ih =>
    unfold natToDecAux
    by_cases h10 : n < 10
    · rw [if_pos h10]
      show decVal ([] ++ [Nat.digitChar n]) = n
      rw [decVal_append_digit, digitChar_toNat h10]
      show 10 * 0 + (48 + n - 48) = n
      omega
    · rw [if_neg h10]
      have hdiv : n / 10 < f := by
        have h1 : n / 10 < n := Nat.div_lt_self (by omega) (by omega)
        omega
      rw [decVal_append_digit, ih (n / 10) hdiv,
        digitChar_toNat (Nat.mod_lt _ (by omega))]
      omega

theorem natToDec_inj : Function.Injective natToDec := by
  intro a b hab
  have ha := natToDecAux_val (a + 1) a (Nat.lt_succ_self a)
  have hb := natToDecAux_val (b + 1) b (Nat.lt_succ_self b)
  have hdata : natToDecAux (a + 1) a = natToDecAux (b + 1) b :=
    congrArg String.data hab
  rw [hdata] at ha
  rw [ha] at hb
  exact hb

theorem findFresh_ge (ex : List String) (i fuel : Nat) :
    i ≤ findFresh ex i fuel := by
  induction fuel generalizing i with
  | zero => exact le_refl i
  | succ f ih =>
    unfold findFresh
    split
    · exact le_trans (Nat.le_succ i) (ih (i + 1))
    · exact le_refl i

theorem findFresh_min (ex : List String) (i fuel : Nat) :
    ∀ m, i ≤ m → m < findFresh ex i fuel →
      ex.contains ("knoten-" ++ natToDec m) = true := by
  induction fuel generalizing i with
  | zero =>
    intro m h1 h2
    unfold findFresh at h2
    omega
  | succ f ih =>
    intro m h1 h2
    unfold findFresh at h2
    split at h2
    · next hc =>
      by_cases hm : m = i
      · subst hm; exact hc
      · exact ih (i + 1) m (by omega) h2
    · omega

theorem findFresh_free (ex : List String) (i fuel : Nat)
    (h : ∃ j, i ≤ j ∧ j < i + fuel ∧
      ex.contains ("knoten-" ++ natToDec j) = false) :
    ex.contains ("knoten-" ++ natToDec (findFresh ex i fuel)) = false := by
  induction fuel generalizing i with
  | zero => rcases h with ⟨j, h1, h2, _⟩; omega
  | succ f ih =>
    unfold findFresh
    split
    · next hc =>
      apply ih (i + 1)
      rcases h with ⟨j, h1, h2, h3⟩
      refine ⟨j, ?_, by omega, h3⟩
      rcases Nat.eq_or_lt_of_le h1 with rfl | h4
      · rw [hc] at h3; exact Bool.noConfusion h3
      · omega
    · next hc => exact Bool.eq_false_iff.mpr hc

theorem exists_free_id (ex : List String) :
    ∃ j, 1 ≤ j ∧ j < 1 + (ex.length + 1) ∧
      ex.contains ("knoten-" ++ natToDec j) = false := by
  by_contra hcon
  push_neg at hcon
  have htaken : ∀ j, 1 ≤ j → j < 1 + (ex.length + 1) →
      ("knoten-" ++ natToDec j) ∈ ex := by
    intro j h1 h2
    have h3 := hcon j h1 h2
    rw [Bool.ne_false_iff] at h3
    simpa using h3
  have hinj : Function.Injective (fun j => "knoten-" ++ natToDec j) := by
    intro a b hab
    have h1 := congrArg String.data hab
    rw [data_append, data_append] at h1
    exact natToDec_inj (String.ext (List.append_cancel_left h1))
  have hnodup : ((List.range' 1 (ex.length + 1)).map
      (fun j => "knoten-" ++ natToDec j)).Nodup :=
    (List.nodup_range' 1 (ex.length + 1)).map hinj
  have hsub : ((List.range' 1 (ex.length + 1)).map
      (fun j => "knoten-" ++ natToDec j)).toFinset ⊆ ex.toFinset := by
    intro x hx
    rcases List.mem_map.mp (List.mem_toFinset.mp hx) with ⟨j, hj, rfl⟩
    rw [List.mem_range'_1] at hj
    exact List.mem_toFinset.mpr (htaken j hj.1 (by omega))
  have h1 : ((List.range' 1 (ex.length + 1)).map
      (fun j => "knoten-" ++ natToDec j)).toFinset.card = ex.length + 1 := by
    rw [List.toFinset_card_of_nodup hnodup, List.length_map,
      List.length_range']
  have h2 := Finset.card_le_card hsub
  have h3 := List.toFinset_card_le ex
  omega

/-- C8: `_add_node` appends one node whose id is `knoten-N` for the
smallest N ≥ 1 not currently in use, with the default title `Knoten N`
and exactly one placeholder choice targeting `"end"`, and leaves the meta
record and all existing nodes unchanged. -/
theorem add_node_spec (p : QuestProject) :
    1 ≤ freshN p ∧
      (_add_node p).meta = p.meta ∧
      (_add_node p).nodes = p.nodes ++
        [⟨"knoten-" ++ natToDec (freshN p), "Knoten " ++ natToDec (freshN p),
          "", "", "", [], [], [], "", [⟨"Weiter", "end"⟩]⟩] ∧
      (p.nodes.map (fun n => n.node_id)).contains
        ("knoten-" ++ natToDec (freshN p)) = false ∧
      ∀ m, 1 ≤ m → m < freshN p →
        (p.nodes.map (fun n => n.node_id)).contains
          ("knoten-" ++ natToDec m) = true := by
  refine ⟨findFresh_ge _ _ _, rfl, rfl, ?_, ?_⟩
  · exact findFresh_free _ _ _ (exists_free_id _)
  · exact findFresh_min _ _ _

theorem add_node_spec_witness :
    (_add_node twoNodeProject).meta = twoNodeProject.meta ∧
      (_add_node twoNodeProject).nodes.length =
        twoNodeProject.nodes.length + 1 := by
  refine ⟨(add_node_spec twoNodeProject).2.1, ?_⟩
  rw [(add_node_spec twoNodeProject).2.2.1]
  simp


/-! ## Determinism of rendering (C9) and the empty-graph document (C10) -/

set_option maxRecDepth 100000

theorem containsSub_of_startsWithL (p l : List Char)
    (h : startsWithL p l = true) : containsSub p l = true := by
  rcases (startsWithL_iff p l).mp h with ⟨t, rfl⟩
  exact (containsSub_iff _ _).mpr ⟨[], t, rfl⟩

theorem startsWithL_append_both (x p l : List Char) :
    startsWithL (x ++ p) (x ++ l) = startsWithL p l := by
  induction x with
  | nil => rfl
  | cons c xs ih => simp [startsWithL, ih]

/-- C9: with a non-blank explicit version stamp, rendering never consults
the clock: the output is identical for any two values of the external
`now` input (hence repeated calls are byte-identical), and the footer
carries the explicit stamp. -/
theorem render_html_deterministic (p : QuestProject) (js : Bool)
    (now now2 : String) (h : pyStrip p.meta.version_stamp ≠ "") :
    render_html p js now = render_html p js now2 ∧
      containsSub ("Stand: " ++ html_escape (pyStrip p.meta.version_stamp)
          ++ "</small>").data (render_html p js now).data = true := by
  have he : (pyStrip p.meta.version_stamp).isEmpty = false := by
    rw [Bool.eq_false_iff]
    intro hc
    exact h ((String.isEmpty_iff _).mp hc)
  have hv : (if (pyStrip p.meta.version_stamp).isEmpty then now
      else pyStrip p.meta.version_stamp) = pyStrip p.meta.version_stamp := by
    rw [he]; simp
  have hv2 : (if (pyStrip p.meta.version_stamp).isEmpty then now2
      else pyStrip p.meta.version_stamp) = pyStrip p.meta.version_stamp := by
    rw [he]; simp
  constructor
  · have h3 : render_html_seg3 p.meta js now =
        render_html_seg3 p.meta js now2 := by
      simp only [render_html_seg3, hv, hv2]
    simp only [render_html, h3]
  · apply (containsSub_iff _ _).mpr
    refine ⟨(render_html_seg1 p.meta).data ++
        ((render_html_seg2 p.meta p.nodes).data ++ END_SECTION_LIT.data),
      ("</p>\n  </footer>\n\n" : String).data ++
        ((if js then JS_BLOCK else "") : String).data ++ HTML_TAIL_LIT.data, ?_⟩
    have hsp : FOOTER_TAIL_LIT.data =
        ("</small>" : String).data ++
          ("</p>\n  </footer>\n\n" : String).data := by decide
    simp only [render_html, render_html_seg3, hv, hsp, data_append,
      List.append_assoc]

theorem render_html_deterministic_witness :
    pyStrip escTitleProject.meta.version_stamp ≠ "" ∧
      (render_html escTitleProject true "A" =
          render_html escTitleProject true "B" ∧
        containsSub ("Stand: " ++
            html_escape (pyStrip escTitleProject.meta.version_stamp)
            ++ "</small>").data
          (render_html escTitleProject true "A").data = true) :=
  ⟨by decide, render_html_deterministic escTitleProject true "A" "B" (by decide)⟩

theorem zum_start_link (rest : List Char) :
    containsSub ("<p><a href=\"#top\">→ Zum Start</a></p>" : String).data
      (("<p><a href=\"#" : String).data ++ (("top" : String).data ++
        (("\">→ Zum Start</a></p>\n    </section>" : String).data ++ rest)))
      = true := by
  apply containsSub_of_startsWithL
  have hpat : ("<p><a href=\"#top\">→ Zum Start</a></p>" : String).data =
      ("<p><a href=\"#" : String).data ++ (("top" : String).data ++
        ("\">→ Zum Start</a></p>" : String).data) := by decide
  rw [hpat, startsWithL_append_both, startsWithL_append_both]
  have hc3 : ("\">→ Zum Start</a></p>\n    </section>" : String).data =
      ("\">→ Zum Start</a></p>" : String).data ++
        ("\n    </section>" : String).data := by decide
  exact (startsWithL_iff _ _).mpr ⟨_, by rw [hc3, List.append_assoc]⟩

/-- C10: rendering a graph with an empty node sequence still produces the
complete document: the navigation list is exactly the single overview
link, the document starts with the doctype, and the overview's
"Zum Start" link falls back to the reserved anchor `top`. -/
theorem render_html_empty_nodes (meta : QuestMeta) (js : Bool) (now : String) :
    render_nav [] =
        "<nav aria-label=\"Quest-Navigation\">\n      <a href=\"#top\">Übersicht</a>\n      </nav>" ∧
      startsWithL ("<!doctype html>" : String).data
        (render_html ⟨meta, []⟩ js now).data = true ∧
      containsSub ("<p><a href=\"#top\">→ Zum Start</a></p>" : String).data
        (render_html ⟨meta, []⟩ js now).data = true := by
  refine ⟨by decide, ?_, ?_⟩
  · simp only [render_html, render_html_seg1, data_append, List.append_assoc]
    apply startsWithL_append
    decide
  · simp only [render_html, render_html_seg1, render_html_seg2,
      render_html_seg3, render_top_section_data, data_append,
      List.append_assoc]
    rw [show html_escape "top" = "top" from by decide]
    iterate 17 apply containsSub_append_left
    exact zum_start_link _

end Quest
